import Mathlib

/-!
# Verification of the tsh job-control shell (src/tsh.c)

A shallow embedding of the job-control core of `tsh.c`: the job table and
its operations (`addjob`, `deletejob`, `maxjid`, `fgpid`, `pid2jid`, job
lookup), the `bg`/`fg` builtin (`do_bgfg`), the parent and child halves of
`eval`'s fork path, and the `SIGCHLD` reap loop (`sigchld_handler`).

Machine integers (`pid_t`, `int`) are modelled as `Int`; the values that
occur stay far below any overflow boundary so no wrap-around modelling is
needed.  The fixed C array `struct job_t jobs[MAXJOBS]` is modelled as a
`List Job_t` of length `MAXJOBS = 16`; array scans from index 0 become
first-match list recursions, which preserve the order of the C loops.
`printf` output is modelled structurally: each distinct format string of
the source becomes one constructor of `Output`, carrying exactly the
integer/string fields the C code passes.  `kill` calls are recorded as
`(target, signal)` events rather than performed.
-/

namespace Tsh

/-- `MAXJOBS` from tsh.c: max jobs at any point in time. -/
def MAXJOBS : Int := 16

/-- Job state `UNDEF` (0). -/
def UNDEF : Int := 0
/-- Job state `FG` (1): running in foreground. -/
def FG : Int := 1
/-- Job state `BG` (2): running in background. -/
def BG : Int := 2
/-- Job state `ST` (3): stopped. -/
def ST : Int := 3

/-- Linux signal number for `SIGCONT`. -/
def SIGCONT : Int := 18
/-- Linux signal number for `SIGTSTP`. -/
def SIGTSTP : Int := 20
/-- Linux errno value `ECHILD`: no child processes. -/
def ECHILD : Int := 10
/-- Linux errno value `EINTR`: interrupted system call. -/
def EINTR : Int := 4

/-- `struct job_t`: one slot of the job table. -/
structure Job_t where
  pid : Int
  jid : Int
  state : Int
  cmdline : String
deriving Repr, DecidableEq

/-- `clearjob`: the cleared slot value (pid 0, jid 0, state `UNDEF`, empty
command line). -/
def clearedJob : Job_t := ⟨0, 0, UNDEF, ""⟩

/-- The shell's job-table state: the global array `jobs` together with the
global counter `nextjid`. -/
structure Shell where
  jobs : List Job_t
  nextjid : Int
deriving Repr, DecidableEq

/-- `initjobs` applied to the globals: 16 cleared slots, `nextjid = 1`. -/
def initShell : Shell := ⟨List.replicate 16 clearedJob, 1⟩

/-- `maxjid`: largest `jid` over all 16 slots (cleared slots carry jid 0),
starting from `max = 0`. -/
def maxjid (js : List Job_t) : Int :=
  js.foldl (fun m j => if j.jid > m then j.jid else m) 0

/-- The slot scan of `addjob`: find the first slot with `pid == 0`, store
the new job there with `jid = nextjid`, and step `nextjid` (wrapping to 1
once it exceeds `MAXJOBS`).  Returns `none` when every slot is occupied. -/
def addjobSlots (pid state : Int) (cmdline : String) (njid : Int) :
    List Job_t → Option (List Job_t × Int)
  | [] => none
  | j :: rest =>
      if j.pid = 0 then
        some (⟨pid, njid, state, cmdline⟩ :: rest,
              if njid + 1 > MAXJOBS then 1 else njid + 1)
      else
        (addjobSlots pid state cmdline njid rest).map (fun r => (j :: r.1, r.2))

/-- Every message the modelled code prints, one constructor per `printf`
format string of the source, carrying the fields the C code passes. -/
inductive Output where
  /-- `Tried to create too many jobs` -/
  | tooManyJobs
  /-- `bg command requires PID or %jobid argument` -/
  | bgReqArg
  /-- `fg command requires PID or %jobid argument` -/
  | fgReqArg
  /-- `bg: argument must be a PID or %jobid` -/
  | bgArgMust
  /-- `fg: argument must be a PID or %jobid` -/
  | fgArgMust
  /-- `%<jid>: No such job` -/
  | noSuchJob (jid : Int)
  /-- `(<pid>): No such process` -/
  | noSuchProcess (pid : Int)
  /-- `[<a>] (<b>) <cmdline>` — the background/bg job line; field `a` is
  whatever the code passes as the first integer argument. -/
  | jobLine (a b : Int) (cmdline : String)
  /-- `<cmd>: Command not found.` -/
  | cmdNotFound (cmd : String)
  /-- `Job [<jid>] (<pid>) stopped by signal <sig>` -/
  | jobStopped (jid pid sig : Int)
  /-- `Job [<jid>] (<pid>) terminated by signal <sig>` -/
  | jobTerminated (jid pid sig : Int)
  /-- `unix_error(msg)`: prints `msg: strerror(errno)` and exits 1. -/
  | unixError (msg : String)
deriving Repr, DecidableEq

/-- `addjob(jobs, pid, state, cmdline)`: result flag, new state, output. -/
def addjob (s : Shell) (pid state : Int) (cmdline : String) :
    Bool × Shell × List Output :=
  if pid < 1 then (false, s, [])
  else
    match addjobSlots pid state cmdline s.nextjid s.jobs with
    | some (js, n) => (true, ⟨js, n⟩, [])
    | none => (false, s, [Output.tooManyJobs])

/-- The slot scan of `deletejob`: clear the first slot whose `pid` matches;
`none` when no slot matches. -/
def deletejobSlots (pid : Int) : List Job_t → Option (List Job_t)
  | [] => none
  | j :: rest =>
      if j.pid = pid then some (clearedJob :: rest)
      else (deletejobSlots pid rest).map (fun r => j :: r)

/-- `deletejob(jobs, pid)`: clear the matching slot and recompute
`nextjid = maxjid(jobs) + 1` (on the already-cleared table). -/
def deletejob (s : Shell) (pid : Int) : Bool × Shell :=
  if pid < 1 then (false, s)
  else
    match deletejobSlots pid s.jobs with
    | some js => (true, ⟨js, maxjid js + 1⟩)
    | none => (false, s)

/-- `fgpid`: pid of the first slot whose state is `FG`, else 0. -/
def fgpid : List Job_t → Int
  | [] => 0
  | j :: rest => if j.state = FG then j.pid else fgpid rest

/-- Index of the first list element satisfying `p`: the C array scan
`for (i = 0; i < MAXJOBS; i++)` with an early return. -/
def scanIdx (p : Job_t → Bool) : List Job_t → Option Nat
  | [] => none
  | j :: rest => if p j then some 0 else (scanIdx p rest).map (· + 1)

/-- `getjobpid` as an index: index of the first slot with the given pid
(`none` models the NULL return; `pid < 1` always yields `none`). -/
def getjobpidIdx (js : List Job_t) (pid : Int) : Option Nat :=
  if pid < 1 then none else scanIdx (fun j => j.pid == pid) js

/-- `getjobjid` as an index: index of the first slot with the given jid. -/
def getjobjidIdx (js : List Job_t) (jid : Int) : Option Nat :=
  if jid < 1 then none else scanIdx (fun j => j.jid == jid) js

/-- `pid2jid`: jid of the first slot with the given pid, 0 when absent or
`pid < 1`. -/
def pid2jid (js : List Job_t) (pid : Int) : Int :=
  if pid < 1 then 0
  else
    match scanIdx (fun j => j.pid == pid) js with
    | some i => (js.getD i clearedJob).jid
    | none => 0

/-- Assignment through a job pointer: set the `state` field of slot `i`
(no-op on an out-of-range index, which models dereferencing a slot the
lookup did find). -/
def setStateAt (js : List Job_t) (i : Nat) (st : Int) : List Job_t :=
  match js.get? i with
  | some j => js.set i { j with state := st }
  | none => js

/-! ## C `atoi`, as `do_bgfg` uses it

`atoi` skips leading white space, accepts an optional sign, then consumes
decimal digits, returning 0 when no digit follows.  The shell's inputs stay
tiny, so unbounded `Int` is a faithful model of the C `int` result. -/

/-- One character of C `isspace`. -/
def isSpaceC (c : Char) : Bool :=
  c = ' ' ∨ c = '\t' ∨ c = '\n' ∨ c = '\x0b' ∨ c = '\x0c' ∨ c = '\r'

/-- Digit-accumulation loop of `atoi`. -/
def atoiDigits : List Char → Int → Int
  | [], acc => acc
  | c :: cs, acc =>
      if '0' ≤ c ∧ c ≤ '9' then
        atoiDigits cs (acc * 10 + (Int.ofNat c.toNat - Int.ofNat '0'.toNat))
      else acc

/-- Sign handling of `atoi`. -/
def atoiSigned : List Char → Int
  | '-' :: cs => - atoiDigits cs 0
  | '+' :: cs => atoiDigits cs 0
  | cs => atoiDigits cs 0

/-- `atoi` on a C string modelled as a character list. -/
def atoi (cs : List Char) : Int :=
  atoiSigned (cs.dropWhile isSpaceC)

/-! ## `do_bgfg`

The builtin takes `argv[0]` (the word `bg` or `fg`) and `argv[1]` (`none`
models a NULL argv[1]).  Result: new shell state, printed output, the
`kill(target, sig)` calls issued, and whether `waitfg` was entered. -/

/-- The argument-validation condition of `do_bgfg`, verbatim from the
source: `(atoi(argv[1]+1) == 0 && argv[1][0] == '%') ||
(atoi(argv[1]) == 0 && argv[1][0] != '%')`.  `argv[1]+1` on the empty
string reads the terminator, i.e. the empty tail. -/
def badBgfgArg (a : List Char) : Bool :=
  (atoi (a.drop 1) = 0 ∧ a.head? = some '%') ∨
  (atoi a = 0 ∧ a.head? ≠ some '%')

/-- Result of `do_bgfg`: shell state, outputs, kill events
(`(target, signal)` with negative target addressing the process group),
and whether `waitfg` was called (and on which pid). -/
structure BgfgRes where
  shell : Shell
  outs : List Output
  kills : List (Int × Int)
  waited : Option Int
deriving Repr, DecidableEq

/-- The shared tail of `do_bgfg` after a job was found at slot `i`:
`jobid` is the value the code will print as the first field, `pidt` the
job's pid. -/
def bgfgAct (s : Shell) (is_BG : Bool) (i : Nat) (jobid pidt : Int) : BgfgRes :=
  let j := s.jobs.getD i clearedJob
  if is_BG then
    { shell := ⟨setStateAt s.jobs i BG, s.nextjid⟩
      outs := [Output.jobLine jobid pidt j.cmdline]
      kills := [(-pidt, SIGCONT)]
      waited := none }
  else
    { shell := ⟨setStateAt s.jobs i FG, s.nextjid⟩
      outs := []
      kills := [(-pidt, SIGCONT)]
      waited := some pidt }

/-- `do_bgfg(argv)` with `arg0 = argv[0]` and `arg1 = argv[1]`. -/
def do_bgfg (s : Shell) (arg0 : String) (arg1 : Option (List Char)) : BgfgRes :=
  let is_BG := arg0 = "bg"
  match arg1 with
  | none =>
      { shell := s
        outs := [if is_BG then Output.bgReqArg else Output.fgReqArg]
        kills := [], waited := none }
  | some a =>
      if badBgfgArg a then
        { shell := s
          outs := [if is_BG then Output.bgArgMust else Output.fgArgMust]
          kills := [], waited := none }
      else if a.head? = some '%' then
        let jobid := atoi (a.drop 1)
        match getjobjidIdx s.jobs jobid with
        | none =>
            { shell := s, outs := [Output.noSuchJob jobid]
              kills := [], waited := none }
        | some i =>
            let pidt := (s.jobs.getD i clearedJob).pid
            bgfgAct s is_BG i jobid pidt
      else
        let pidt := atoi a
        match getjobpidIdx s.jobs pidt with
        | none =>
            { shell := s, outs := [Output.noSuchProcess pidt]
              kills := [], waited := none }
        | some i =>
            -- the source assigns `jobid = jid->pid` here (not `jid->jid`)
            let jobid := (s.jobs.getD i clearedJob).pid
            bgfgAct s is_BG i jobid pidt

/-! ## `eval`: the fork path

`eval` is split at the `fork`.  The parent half starts right after
`Sigprocmask(SIG_BLOCK, ..)` and the fork; it registers the job, and the
`Sigprocmask(SIG_UNBLOCK, ..)` calls appear only inside the
`addjob`-success branches — the returned flag records whether `SIGCHLD` is
still blocked when `eval` returns. -/

/-- Result of the parent half of `eval`'s fork path. -/
structure EvalRes where
  shell : Shell
  sigchldBlocked : Bool
  outs : List Output
  waited : Option Int
deriving Repr, DecidableEq

/-- Parent half of `eval` after `builtin_cmd` returned 0: SIGCHLD has just
been blocked and `Fork()` returned child pid `pid > 0`; `bg` is
`parseline`'s background flag. -/
def evalParent (s : Shell) (pid : Int) (bg : Bool) (cmdline : String) : EvalRes :=
  if bg = false then
    match addjob s pid FG cmdline with
    | (true, s', out) =>
        -- Sigprocmask(SIG_UNBLOCK); waitfg(pid)
        { shell := s', sigchldBlocked := false, outs := out, waited := some pid }
    | (false, s', out) =>
        { shell := s', sigchldBlocked := true, outs := out, waited := none }
  else
    match addjob s pid BG cmdline with
    | (true, s', out) =>
        -- Sigprocmask(SIG_UNBLOCK); printf("[%d] (%d) %s", pid2jid(pid), ..)
        { shell := s', sigchldBlocked := false
          outs := out ++ [Output.jobLine (pid2jid s'.jobs pid) pid cmdline]
          waited := none }
    | (false, s', out) =>
        { shell := s', sigchldBlocked := true, outs := out, waited := none }

/-- What the child becomes after `eval`'s child branch. -/
inductive ChildRes where
  /-- `execve` succeeded: the child's image is replaced by the program. -/
  | execed (prog : String) (argv : List String)
  /-- The child called `exit(code)` after printing `outs`. -/
  | exited (code : Int) (outs : List Output)
deriving Repr, DecidableEq

/-- Child half of `eval`: unblock SIGCHLD, `setpgid(0,0)`, then `execve`;
`execveOk` tells whether the image replacement succeeds (file found and
executable). -/
def evalChild (execveOk : Bool) (argv0 : String) (argv : List String) : ChildRes :=
  if execveOk then ChildRes.execed argv0 argv
  else ChildRes.exited 0 [Output.cmdNotFound argv0]

/-! ## `sigchld_handler`

One handler invocation is modelled by the sequence of `waitpid` results it
sees: first the reaped children (`waitpid > 0`, each with a status), then
the terminating call (`waitpid` returning 0 — children remain but none
changed status, leaving `errno` untouched — or `-1` with an `errno`).
After the loop the source tests `errno` unconditionally:
`if (ECHILD != errno && EINTR != errno) unix_error("waitpid error");`. -/

/-- Decoded `waitpid` status of one reaped child. -/
inductive Status where
  /-- `WIFSTOPPED`: stopped by signal `sig` (`WSTOPSIG`). -/
  | stopped (sig : Int)
  /-- `WIFSIGNALED`: terminated by uncaught signal `sig` (`WTERMSIG`). -/
  | signaled (sig : Int)
  /-- `WIFEXITED`: exited normally with `WEXITSTATUS` code. -/
  | exitedNormally (code : Int)
deriving Repr, DecidableEq

/-- The final `waitpid` call that ends the reap loop. -/
inductive LoopEnd where
  /-- `waitpid` returned 0: children remain, none pending; `errno` keeps
  its previous (stale) value. -/
  | noneReady
  /-- `waitpid` returned -1 and set `errno` to `e`. -/
  | err (e : Int)
deriving Repr, DecidableEq

/-- Loop body of `sigchld_handler` for one reaped child (non-verbose
mode, i.e. the default `verbose = 0`). -/
def reapOne (s : Shell) (pid : Int) (st : Status) : Shell × List Output :=
  let jobid := pid2jid s.jobs pid
  match st with
  | Status.stopped sig =>
      match getjobpidIdx s.jobs pid with
      | some i => (⟨setStateAt s.jobs i ST, s.nextjid⟩,
                   [Output.jobStopped jobid pid sig])
      | none => (s, [Output.jobStopped jobid pid sig])
  | Status.signaled sig =>
      ((deletejob s pid).2, [Output.jobTerminated jobid pid sig])
  | Status.exitedNormally _ =>
      ((deletejob s pid).2, [])

/-- The reap loop over the children `waitpid` reports. -/
def reapAll (s : Shell) : List (Int × Status) → Shell × List Output
  | [] => (s, [])
  | (pid, st) :: rest =>
      let (s', out) := reapOne s pid st
      let (s'', outs) := reapAll s' rest
      (s'', out ++ outs)

/-- `sigchld_handler` (non-verbose): reap `kids`, then the loop ends as
`fin` says; `errno0` is the (stale) errno value at handler entry.  The
last component is true when the handler calls `unix_error` — a fatal shell
error (the process exits). -/
def sigchld_handler (s : Shell) (errno0 : Int) (kids : List (Int × Status))
    (fin : LoopEnd) : Shell × List Output × Bool :=
  let (s', outs) := reapAll s kids
  let errno := match fin with
    | LoopEnd.noneReady => errno0
    | LoopEnd.err e => e
  if ECHILD ≠ errno ∧ EINTR ≠ errno then
    (s', outs ++ [Output.unixError "waitpid error"], true)
  else
    (s', outs, false)

/-! ## Operation sequences over the job table -/

/-- One bare job-table operation (an `addjob` or `deletejob` call). -/
inductive TableOp where
  | ins (pid state : Int) (cmdline : String)
  | del (pid : Int)
deriving Repr, DecidableEq

/-- Apply one table operation (the returned flag/output is dropped; a
failing call leaves the table unchanged, as in the source). -/
def applyTableOp (s : Shell) : TableOp → Shell
  | TableOp.ins pid st cmd => (addjob s pid st cmd).2.1
  | TableOp.del pid => (deletejob s pid).2

/-- Run a sequence of table operations from a starting state. -/
def runOps (s : Shell) (ops : List TableOp) : Shell :=
  ops.foldl applyTableOp s

/-- Every job-table mutation the shell performs, with the lookup each
call site uses: `eval`'s `addjob`, the relay's `deletejob`, the relay's
stop transition `getjobpid(jobs, pid)->state = ST`, and `do_bgfg`'s
transitions through the pointer obtained from `getjobjid` or
`getjobpid`. -/
inductive ShellOp where
  | ins (pid state : Int) (cmdline : String)
  | del (pid : Int)
  | relayStop (pid : Int)
  | bgfgByJid (jid : Int) (toFG : Bool)
  | bgfgByPid (pid : Int) (toFG : Bool)
deriving Repr, DecidableEq

/-- Apply one shell-level job-table mutation. -/
def applyShellOp (s : Shell) : ShellOp → Shell
  | ShellOp.ins pid st cmd => (addjob s pid st cmd).2.1
  | ShellOp.del pid => (deletejob s pid).2
  | ShellOp.relayStop pid =>
      match getjobpidIdx s.jobs pid with
      | some i => ⟨setStateAt s.jobs i ST, s.nextjid⟩
      | none => s
  | ShellOp.bgfgByJid jid toFG =>
      match getjobjidIdx s.jobs jid with
      | some i => ⟨setStateAt s.jobs i (if toFG then FG else BG), s.nextjid⟩
      | none => s
  | ShellOp.bgfgByPid pid toFG =>
      match getjobpidIdx s.jobs pid with
      | some i => ⟨setStateAt s.jobs i (if toFG then FG else BG), s.nextjid⟩
      | none => s

/-- Run a sequence of shell-level mutations. -/
def runShellOps (s : Shell) (ops : List ShellOp) : Shell :=
  ops.foldl applyShellOp s

/-- Does this operation put a slot into the Foreground state? -/
def createsFG : ShellOp → Prop
  | ShellOp.ins _ st _ => st = FG
  | ShellOp.bgfgByJid _ toFG => toFG = true
  | ShellOp.bgfgByPid _ toFG => toFG = true
  | _ => False

/-! ## Statements of the specified invariants -/

/-- The jids of the occupied slots, in slot order. -/
def occupiedJids (s : Shell) : List Int :=
  (s.jobs.filter (fun j => j.pid != 0)).map Job_t.jid

/-- The invariant asserted by the spec for the job table: occupied slots
carry pairwise distinct jids, and `nextjid` differs from every occupied
slot's jid. -/
@[reducible] def C1invariant (s : Shell) : Prop :=
  (occupiedJids s).Nodup ∧ ∀ j ∈ s.jobs, j.pid ≠ 0 → s.nextjid ≠ j.jid

/-- Number of occupied slots in state `FG`. -/
def fgCount (js : List Job_t) : Nat :=
  js.countP (fun j => j.pid != 0 && j.state == FG)

/-- "At most one occupied slot has state Foreground." -/
@[reducible] def atMostOneFG (js : List Job_t) : Prop :=
  fgCount js ≤ 1

/-- "No occupied slot is Foreground" — the state in which the shell's
main flow is at its read-eval prompt. -/
@[reducible] def noOccupiedFG (js : List Job_t) : Prop :=
  ∀ j ∈ js, j.pid ≠ 0 → j.state ≠ FG

/-- The main-flow discipline of the shell, along a run: any operation
that puts a slot into Foreground state is performed only when no occupied
slot is Foreground. -/
def guardedRun : Shell → List ShellOp → Prop
  | _, [] => True
  | s, op :: ops =>
      (createsFG op → noOccupiedFG s.jobs) ∧ guardedRun (applyShellOp s op) ops

/-- Spec wording (claim C6): "the first free slot (lowest index with
pid = 0)". -/
def firstFree (js : List Job_t) : Option Nat :=
  scanIdx (fun j => j.pid == 0) js

/-- Spec wording (claim C7): "maximum job_id among the remaining occupied
slots" — a maximum over the occupied slots only, 0 when none are. -/
def maxOccupiedJid (js : List Job_t) : Int :=
  js.foldl (fun m j => if j.pid ≠ 0 ∧ j.jid > m then j.jid else m) 0

/-! ## Concrete states and operation sequences used by the claims -/

/-- A full job table: 16 occupied slots, pids and jids 1..16 (the state
reached after sixteen successful `addjob` calls), `nextjid` wrapped
to 1. -/
def fullShell : Shell :=
  ⟨(List.range 16).map (fun k => ⟨Int.ofNat k + 1, Int.ofNat k + 1, BG, "cmd"⟩), 1⟩

/-- Sixteen `addjob` calls with pids 1..16: fills the table and wraps the
counter. -/
def seqFill : List TableOp :=
  (List.range 16).map (fun k => TableOp.ins (Int.ofNat k + 1) BG "")

/-- A churn sequence that makes the wrapped counter collide: add pids
1..15 (jids 1..15), delete pids 2..14 (the counter is recomputed to 16
each time), add pid 16 (jid 16; the counter wraps to 1 while jid 1 is
still live), then add pid 17 (assigned jid 1 — a duplicate). -/
def seqChurn : List TableOp :=
  (List.range 15).map (fun k => TableOp.ins (Int.ofNat k + 1) BG "") ++
  (List.range 13).map (fun k => TableOp.del (Int.ofNat k + 2)) ++
  [TableOp.ins 16 BG "", TableOp.ins 17 BG ""]

/-- A table holding one stopped job, pid 5 with jid 2. -/
def stoppedShell : Shell :=
  ⟨⟨5, 2, ST, "sleep 9 &"⟩ :: List.replicate 15 clearedJob, 3⟩

/-- A table holding a foreground job (pid 5, jid 1) and a background job
(pid 6, jid 2). -/
def twoJobShell : Shell :=
  ⟨⟨5, 1, FG, "a"⟩ :: ⟨6, 2, BG, "b"⟩ :: List.replicate 14 clearedJob, 3⟩

/-! ## Helper lemmas -/

/-- The slot scan of `addjob` fills the first free slot — `List.set` at
the index `firstFree` returns — and steps the counter with the wrap. -/
theorem addjobSlots_eq (pid st : Int) (cmd : String) (njid : Int)
    (js : List Job_t) :
    addjobSlots pid st cmd njid js =
      (firstFree js).map
        (fun i => (js.set i ⟨pid, njid, st, cmd⟩,
                   if njid + 1 > MAXJOBS then 1 else njid + 1)) := by
  induction js with
  | nil => rfl
  | cons j rest ih =>
      by_cases h : j.pid = 0
      · simp [addjobSlots, firstFree, scanIdx, h]
      · simp only [addjobSlots, firstFree, scanIdx, h] at ih ⊢
        rw [ih]
        cases hscan : scanIdx (fun j => j.pid == 0) rest <;>
          simp [h, hscan, List.set_cons_succ]

/-- The slot scan of `deletejob` clears the first slot holding `pid`. -/
theorem deletejobSlots_eq (pid : Int) (js : List Job_t) :
    deletejobSlots pid js =
      (scanIdx (fun j => j.pid == pid) js).map (fun i => js.set i clearedJob) := by
  induction js with
  | nil => rfl
  | cons j rest ih =>
      by_cases h : j.pid = pid
      · simp [deletejobSlots, scanIdx, h]
      · simp only [deletejobSlots, scanIdx, h] at ih ⊢
        rw [ih]
        cases hscan : scanIdx (fun j => j.pid == pid) rest <;>
          simp [h, hscan, List.set_cons_succ]

/-- On a table where cleared slots carry jid 0 — true of every state the
shell reaches — `maxjid`'s scan over all 16 slots agrees with the spec's
"maximum job_id among the occupied slots". -/
theorem maxjid_eq_maxOccupiedJid (js : List Job_t)
    (h : ∀ j ∈ js, j.pid = 0 → j.jid = 0) :
    maxjid js = maxOccupiedJid js := by
  have aux : ∀ (l : List Job_t), (∀ j ∈ l, j.pid = 0 → j.jid = 0) →
      ∀ m : Int, 0 ≤ m →
      l.foldl (fun m j => if j.jid > m then j.jid else m) m =
      l.foldl (fun m j => if j.pid ≠ 0 ∧ j.jid > m then j.jid else m) m := by
    intro l
    induction l with
    | nil => intro _ m _; rfl
    | cons j rest ih =>
        intro hc m hm
        have hj := hc j (List.mem_cons_self j rest)
        have hrest : ∀ x ∈ rest, x.pid = 0 → x.jid = 0 :=
          fun x hx => hc x (List.mem_cons_of_mem j hx)
        by_cases hp : j.pid = 0
        · have hjid : j.jid = 0 := hj hp
          have hlt : ¬ j.jid > m := by omega
          have hcond : ¬ (j.pid ≠ 0 ∧ j.jid > m) := fun hc => hc.1 hp
          simp only [List.foldl_cons, if_neg hlt, if_neg hcond]
          exact ih hrest m hm
        · simp only [List.foldl_cons, ne_eq, hp, not_false_eq_true, true_and]
          by_cases hgt : j.jid > m
          · simp only [if_pos hgt]
            exact ih hrest j.jid (by omega)
          · simp only [if_neg hgt]
            exact ih hrest m hm
  exact aux js h 0 le_rfl

/-- `maxjid` of a table whose slots all carry jid 0 is 0. -/
theorem maxjid_all_zero (js : List Job_t) (h : ∀ j ∈ js, j.jid = 0) :
    maxjid js = 0 := by
  have aux : ∀ (l : List Job_t), (∀ j ∈ l, j.jid = 0) →
      ∀ m : Int, 0 ≤ m →
      l.foldl (fun m j => if j.jid > m then j.jid else m) m = m := by
    intro l
    induction l with
    | nil => intro _ m _; rfl
    | cons j rest ih =>
        intro hc m hm
        have hj := hc j (List.mem_cons_self j rest)
        have hlt : ¬ j.jid > m := by omega
        simp only [List.foldl_cons, if_neg hlt]
        exact ih (fun x hx => hc x (List.mem_cons_of_mem j hx)) m hm
  exact aux js h 0 le_rfl

/-- The scan finds index `i` when everything before `i` fails the test
and the element at `i` passes it. -/
theorem scanIdx_some (p : Job_t → Bool) (js : List Job_t) (i : Nat)
    (hlt : ∀ k, k < i → ∀ jk, js.get? k = some jk → p jk = false)
    (hi : ∀ jk, js.get? i = some jk → p jk = true)
    (hlen : i < js.length) :
    scanIdx p js = some i := by
  induction js generalizing i with
  | nil => simp at hlen
  | cons j rest ih =>
      cases i with
      | zero =>
          have := hi j (by simp)
          simp [scanIdx, this]
      | succ i' =>
          have hj : p j = false := hlt 0 (Nat.succ_pos i') j (by simp)
          have hrec := ih i'
            (fun k hk jk hget => hlt (k + 1) (Nat.succ_lt_succ hk) jk
              (by simpa using hget))
            (fun jk hget => hi jk (by simpa using hget))
            (by simpa using hlen)
          simp [scanIdx, hj, hrec]

/-- Replacing one slot changes the count of slots satisfying `p` by at
most the contribution of the new value. -/
theorem countP_set_le (p : Job_t → Bool) (v : Job_t) (js : List Job_t)
    (i : Nat) :
    (js.set i v).countP p ≤ js.countP p + (if p v then 1 else 0) := by
  induction js generalizing i with
  | nil => simp [List.set]
  | cons j rest ih =>
      cases i with
      | zero =>
          simp only [List.set_cons_zero, List.countP_cons]
          omega
      | succ i' =>
          simp only [List.set_cons_succ, List.countP_cons]
          have := ih i'
          omega

/-- With no occupied Foreground slot, the Foreground count is zero. -/
theorem fgCount_eq_zero (js : List Job_t) (h : noOccupiedFG js) :
    fgCount js = 0 := by
  refine List.countP_eq_zero.mpr ?_
  intro j hj hpj
  simp only [Bool.and_eq_true, bne_iff_ne, beq_iff_eq] at hpj
  exact h j hj hpj.1 hpj.2

/-- Replacing a slot by a non-Foreground (or unoccupied) value keeps the
Foreground count at most one. -/
theorem fgCount_set_of_notFG (js : List Job_t) (i : Nat) (v : Job_t)
    (h1 : fgCount js ≤ 1) (hv : (v.pid != 0 && v.state == FG) = false) :
    fgCount (js.set i v) ≤ 1 := by
  have hb := countP_set_le (fun j => j.pid != 0 && j.state == FG) v js i
  simp only [fgCount] at h1 ⊢
  rw [hv] at hb
  have : (if (false = true) then 1 else 0) = 0 := rfl
  rw [this] at hb
  omega

/-- Replacing a slot in a table with no Foreground slot yields at most
one Foreground slot. -/
theorem fgCount_set_of_zero (js : List Job_t) (i : Nat) (v : Job_t)
    (h0 : fgCount js = 0) :
    fgCount (js.set i v) ≤ 1 := by
  have hb := countP_set_le (fun j => j.pid != 0 && j.state == FG) v js i
  simp only [fgCount] at h0 ⊢
  rw [h0] at hb
  have : (if (v.pid != 0 && v.state == FG) = true then 1 else 0) ≤ 1 := by
    split <;> omega
  omega

/-- One shell-level job-table mutation preserves "at most one occupied
Foreground slot", provided any Foreground-creating mutation happens only
when no occupied slot is Foreground. -/
theorem fgCount_step (s : Shell) (op : ShellOp)
    (hinv : fgCount s.jobs ≤ 1)
    (hguard : createsFG op → noOccupiedFG s.jobs) :
    fgCount (applyShellOp s op).jobs ≤ 1 := by
  cases op with
  | ins pid st cmd =>
      by_cases hp : pid < 1
      · simpa [applyShellOp, addjob, hp] using hinv
      · rw [applyShellOp, addjob, if_neg hp, addjobSlots_eq]
        cases hf : firstFree s.jobs with
        | none => simpa [hf] using hinv
        | some i =>
            simp only [hf, Option.map_some']
            by_cases hst : st = FG
            · have h0 := fgCount_eq_zero s.jobs (hguard hst)
              exact fgCount_set_of_zero s.jobs i _ h0
            · exact fgCount_set_of_notFG s.jobs i _ hinv (by simp [hst])
  | del pid =>
      by_cases hp : pid < 1
      · simpa [applyShellOp, deletejob, hp] using hinv
      · rw [applyShellOp, deletejob, if_neg hp, deletejobSlots_eq]
        cases hs : scanIdx (fun j => j.pid == pid) s.jobs with
        | none => simpa [hs] using hinv
        | some i =>
            simp only [hs, Option.map_some']
            exact fgCount_set_of_notFG s.jobs i _ hinv (by simp [clearedJob])
  | relayStop pid =>
      rw [applyShellOp]
      cases hl : getjobpidIdx s.jobs pid with
      | none => simpa using hinv
      | some i =>
          simp only
          rw [setStateAt]
          cases hg : s.jobs.get? i with
          | none => simpa using hinv
          | some j =>
              simp only
              refine fgCount_set_of_notFG s.jobs i _ hinv ?_
              simp [ST, FG]
  | bgfgByJid jid toFG =>
      rw [applyShellOp]
      cases hl : getjobjidIdx s.jobs jid with
      | none => simpa using hinv
      | some i =>
          simp only
          rw [setStateAt]
          cases hg : s.jobs.get? i with
          | none => simpa using hinv
          | some j =>
              simp only
              cases toFG with
              | false =>
                  refine fgCount_set_of_notFG s.jobs i _ hinv ?_
                  simp [BG, FG]
              | true =>
                  have h0 := fgCount_eq_zero s.jobs (hguard rfl)
                  exact fgCount_set_of_zero s.jobs i _ h0
  | bgfgByPid pid toFG =>
      rw [applyShellOp]
      cases hl : getjobpidIdx s.jobs pid with
      | none => simpa using hinv
      | some i =>
          simp only
          rw [setStateAt]
          cases hg : s.jobs.get? i with
          | none => simpa using hinv
          | some j =>
              simp only
              cases toFG with
              | false =>
                  refine fgCount_set_of_notFG s.jobs i _ hinv ?_
                  simp [BG, FG]
              | true =>
                  have h0 := fgCount_eq_zero s.jobs (hguard rfl)
                  exact fgCount_set_of_zero s.jobs i _ h0

/-! ## Claim theorems -/

/-- C1: the claimed invariant — pairwise distinct jids among occupied
slots and a `nextjid` never equal to a live jid — fails on the code.
After `seqFill` (sixteen inserts) the wrapped counter is 1 while the job
with jid 1 is still live; after `seqChurn` two occupied slots (pids 1
and 17) both carry jid 1. -/
theorem addjob_wrap_breaks_C1invariant :
    (runOps initShell seqFill).nextjid = 1 ∧
    ((runOps initShell seqFill).jobs.getD 0 clearedJob).pid = 1 ∧
    ((runOps initShell seqFill).jobs.getD 0 clearedJob).jid = 1 ∧
    ((runOps initShell seqChurn).jobs.getD 0 clearedJob) = ⟨1, 1, BG, ""⟩ ∧
    ((runOps initShell seqChurn).jobs.getD 2 clearedJob) = ⟨17, 1, BG, ""⟩ ∧
    ¬ C1invariant (runOps initShell seqFill) ∧
    ¬ C1invariant (runOps initShell seqChurn) := by
  decide

/-- C2: `eval` unblocks SIGCHLD only inside the `addjob`-success
branches.  On a successful registration it returns unblocked, but when
registration fails (full table, foreground or background request alike)
it returns with SIGCHLD still blocked — refuting the claim that SIGCHLD
is unblocked before `eval` returns in both cases. -/
theorem evalParent_sigchld_blocked_on_failure :
    (evalParent initShell 100 false "ls").sigchldBlocked = false ∧
    (evalParent initShell 100 true "ls &").sigchldBlocked = false ∧
    (evalParent fullShell 100 false "ls").sigchldBlocked = true ∧
    (evalParent fullShell 100 true "ls &").sigchldBlocked = true ∧
    (evalParent fullShell 100 false "ls").outs = [Output.tooManyJobs] := by
  decide

/-- C3 counterexample: on execve failure the child exits with status 0,
not a non-zero status as claimed. -/
theorem evalChild_exit_zero_cex :
    evalChild false "./nope" ["./nope"] =
      ChildRes.exited 0 [Output.cmdNotFound "./nope"] := by
  decide

/-- C3 (amended): when the replace-image operation fails, the child
prints the command-not-found diagnostic and terminates immediately with
exit status 0 (the source calls `exit(0)`), never falling through into
shell logic. -/
theorem evalChild_fail_spec (argv0 : String) (argv : List String) :
    evalChild false argv0 argv = ChildRes.exited 0 [Output.cmdNotFound argv0] :=
  rfl

/-- C4: `do_bgfg`'s pid branch stores `jid->pid` (not `jid->jid`) in the
variable it prints as the bracketed first field.  For `bg 5` on a job
with pid 5 and jid 2 the state transition and the SIGCONT relay are as
specified, but the printed line is `[5] (5) ...` though the job's jid
is 2. -/
theorem do_bgfg_prints_pid_as_jid_cex :
    do_bgfg stoppedShell "bg" (some ['5']) =
      ⟨⟨⟨5, 2, BG, "sleep 9 &"⟩ :: List.replicate 15 clearedJob, 3⟩,
       [Output.jobLine 5 5 "sleep 9 &"],
       [(-5, SIGCONT)], none⟩ ∧
    (stoppedShell.jobs.getD 0 clearedJob).jid = 2 ∧ (5 : Int) ≠ 2 := by
  decide

/-- C5: the handler checks `errno` even when the loop ended because
`waitpid` returned 0 (children remain, none pending — no polling error).
With a stale `errno` of 0 it calls `unix_error` and the shell dies; the
same run with stale `errno = ECHILD` happens to be tolerated.  So a
fatal escalation is not confined to real polling errors. -/
theorem sigchld_fatal_without_error_cex :
    sigchld_handler twoJobShell 0 [(5, Status.exitedNormally 0)]
        LoopEnd.noneReady =
      (⟨clearedJob :: ⟨6, 2, BG, "b"⟩ :: List.replicate 14 clearedJob, 3⟩,
       [Output.unixError "waitpid error"], true) ∧
    sigchld_handler twoJobShell ECHILD [(5, Status.exitedNormally 0)]
        LoopEnd.noneReady =
      (⟨clearedJob :: ⟨6, 2, BG, "b"⟩ :: List.replicate 14 clearedJob, 3⟩,
       [], false) := by
  decide

/-- C6: `addjob` returns false and changes nothing when `pid ≤ 0`; on a
table with no free slot it returns false, logs the capacity error, and
changes nothing; otherwise it fills the first free slot (lowest index
with pid 0) with the pid, state and command line, assigns jid equal to
the counter, and post-increments the counter with the wrap to 1 once it
exceeds `MAXJOBS = 16`. -/
theorem addjob_spec (s : Shell) (pid st : Int) (cmd : String) :
    (pid ≤ 0 → addjob s pid st cmd = (false, s, [])) ∧
    (1 ≤ pid → firstFree s.jobs = none →
      addjob s pid st cmd = (false, s, [Output.tooManyJobs])) ∧
    (1 ≤ pid → ∀ i, firstFree s.jobs = some i →
      addjob s pid st cmd =
        (true,
         ⟨s.jobs.set i ⟨pid, s.nextjid, st, cmd⟩,
          if s.nextjid + 1 > MAXJOBS then 1 else s.nextjid + 1⟩,
         [])) := by
  refine ⟨?_, ?_, ?_⟩
  · intro h
    rw [addjob, if_pos (by omega)]
  · intro h hf
    rw [addjob, if_neg (by omega), addjobSlots_eq, hf]
    rfl
  · intro h i hf
    rw [addjob, if_neg (by omega), addjobSlots_eq, hf]
    rfl

/-- Witness for `addjob_spec`: inserting pid 5 into the fresh table fills
slot 0 with jid 1 and steps the counter to 2. -/
theorem addjob_spec_w :
    (1 : Int) ≤ 5 ∧ firstFree initShell.jobs = some 0 ∧
    addjob initShell 5 BG "sleep 1 &" =
      (true, ⟨⟨5, 1, BG, "sleep 1 &"⟩ :: List.replicate 15 clearedJob, 2⟩, []) := by
  refine ⟨by decide, by decide, ?_⟩
  exact ((addjob_spec initShell 5 BG "sleep 1 &").2.2 (by decide) 0
    (by decide)).trans (by decide)

/-- C7: `deletejob` returns false and changes nothing when `pid ≤ 0` or
when no slot holds that pid; otherwise it clears the slot holding the
pid and sets the counter to the maximum jid among the remaining occupied
slots plus one.  The hypothesis — cleared slots carry jid 0 — holds in
every state the shell reaches. -/
theorem deletejob_spec (s : Shell) (pid : Int)
    (hclean : ∀ j ∈ s.jobs, j.pid = 0 → j.jid = 0) :
    (pid ≤ 0 → deletejob s pid = (false, s)) ∧
    (scanIdx (fun j => j.pid == pid) s.jobs = none →
      deletejob s pid = (false, s)) ∧
    (1 ≤ pid → ∀ i, scanIdx (fun j => j.pid == pid) s.jobs = some i →
      deletejob s pid =
        (true, ⟨s.jobs.set i clearedJob,
                maxOccupiedJid (s.jobs.set i clearedJob) + 1⟩)) := by
  refine ⟨?_, ?_, ?_⟩
  · intro h
    rw [deletejob, if_pos (by omega)]
  · intro hscan
    by_cases hp : pid < 1
    · rw [deletejob, if_pos hp]
    · rw [deletejob, if_neg hp, deletejobSlots_eq, hscan]
      rfl
  · intro hp i hscan
    have hcleanset : ∀ j ∈ s.jobs.set i clearedJob, j.pid = 0 → j.jid = 0 := by
      intro j hj
      rcases List.mem_or_eq_of_mem_set hj with hmem | heq
      · exact hclean j hmem
      · intro _; rw [heq]; rfl
    rw [deletejob, if_neg (by omega), deletejobSlots_eq, hscan,
      Option.map_some']
    simp only []
    rw [maxjid_eq_maxOccupiedJid _ hcleanset]

/-- Witness for `deletejob_spec`: deleting the stopped job (pid 5, jid 2)
clears its slot and resets the counter to 1, the empty table's maximum
occupied jid being 0. -/
theorem deletejob_spec_w :
    (∀ j ∈ stoppedShell.jobs, j.pid = 0 → j.jid = 0) ∧
    (1 : Int) ≤ 5 ∧
    scanIdx (fun j => j.pid == (5 : Int)) stoppedShell.jobs = some 0 ∧
    deletejob stoppedShell 5 =
      (true, ⟨clearedJob :: List.replicate 15 clearedJob, 1⟩) := by
  refine ⟨by decide, by decide, by decide, ?_⟩
  exact ((deletejob_spec stoppedShell 5 (by decide)).2.2 (by decide) 0
    (by decide)).trans (by decide)

/-- C8: every `bg`/`fg` error path — missing argument, argument failing
the integer validation (bare or `%`-prefixed), unknown jid in the `%`
branch, unknown pid in the bare branch — prints exactly its targeted
message and returns with the table unchanged, no signal sent and no
`waitfg` entered. -/
theorem do_bgfg_error_cases (s : Shell) (arg0 : String)
    (a0 : Option (List Char)) :
    (a0 = none →
      do_bgfg s arg0 a0 =
        ⟨s, [if arg0 = "bg" then Output.bgReqArg else Output.fgReqArg],
         [], none⟩) ∧
    (∀ a, a0 = some a → badBgfgArg a = true →
      do_bgfg s arg0 a0 =
        ⟨s, [if arg0 = "bg" then Output.bgArgMust else Output.fgArgMust],
         [], none⟩) ∧
    (∀ a, a0 = some a → badBgfgArg a = false → a.head? = some '%' →
      getjobjidIdx s.jobs (atoi (a.drop 1)) = none →
      do_bgfg s arg0 a0 =
        ⟨s, [Output.noSuchJob (atoi (a.drop 1))], [], none⟩) ∧
    (∀ a, a0 = some a → badBgfgArg a = false → a.head? ≠ some '%' →
      getjobpidIdx s.jobs (atoi a) = none →
      do_bgfg s arg0 a0 =
        ⟨s, [Output.noSuchProcess (atoi a)], [], none⟩) := by
  refine ⟨?_, ?_, ?_, ?_⟩
  · intro h; subst h; rfl
  · intro a h hbad; subst h
    simp [do_bgfg, hbad]
  · intro a h hbad hhead hlook; subst h
    rw [List.drop_one] at hlook
    simp [do_bgfg, hbad, hhead, hlook]
  · intro a h hbad hhead hlook; subst h
    simp [do_bgfg, hbad, hhead, hlook]

/-- Witness for `do_bgfg_error_cases`: `fg %99` with no job 99 prints
the no-such-job message and has no side effects. -/
theorem do_bgfg_error_cases_w :
    badBgfgArg ['%', '9', '9'] = false ∧
    getjobjidIdx stoppedShell.jobs 99 = none ∧
    do_bgfg stoppedShell "fg" (some ['%', '9', '9']) =
      ⟨stoppedShell, [Output.noSuchJob 99], [], none⟩ := by
  refine ⟨by decide, by decide, ?_⟩
  exact ((do_bgfg_error_cases stoppedShell "fg"
    (some ['%', '9', '9'])).2.2.1 ['%', '9', '9'] rfl (by decide) (by decide)
    (by decide)).trans (by decide)

/-- C9 counterexample: the Job Table operations alone do not enforce the
single-Foreground invariant — two Foreground insertions yield two
occupied Foreground slots. -/
theorem atMostOneFG_cex :
    ¬ atMostOneFG (runShellOps initShell
        [ShellOp.ins 1 FG "a", ShellOp.ins 2 FG "b"]).jobs := by
  decide

/-- C9 (amended): after every sequence of Job Table operations (insert,
remove, and the state transitions performed by the bg/fg commands and
the Signal Relay) in which each Foreground-creating operation (a
Foreground insert or an fg transition) is performed only when no
occupied slot is Foreground — the discipline the shell's main loop
observes — at most one occupied slot has state Foreground. -/
theorem atMostOneFG_guardedRun (s : Shell) (ops : List ShellOp)
    (hinv : atMostOneFG s.jobs) (hg : guardedRun s ops) :
    atMostOneFG (runShellOps s ops).jobs := by
  induction ops generalizing s with
  | nil => exact hinv
  | cons op ops ih =>
      exact ih (applyShellOp s op) (fgCount_step s op hinv hg.1) hg.2

/-- Witness for `atMostOneFG_guardedRun`: a Foreground insert into the
empty table, followed by a relay stop and an fg transition, keeps at
most one Foreground slot. -/
theorem atMostOneFG_guardedRun_w :
    atMostOneFG initShell.jobs ∧
    atMostOneFG (runShellOps initShell
      [ShellOp.ins 5 FG "sleep 1", ShellOp.relayStop 5,
       ShellOp.bgfgByJid 1 true]).jobs :=
  ⟨by decide,
   atMostOneFG_guardedRun initShell
     [ShellOp.ins 5 FG "sleep 1", ShellOp.relayStop 5,
      ShellOp.bgfgByJid 1 true]
     (by decide)
     ⟨fun _ => by decide, ⟨fun h => False.elim h,
       ⟨fun _ => by decide, trivial⟩⟩⟩⟩

/-- C10: deleting the only occupied slot resets the counter to 1 (the
maximum jid over the now-empty table is 0), so the next inserted job
receives jid 1 — however large the counter had grown.  Slot `i` holds
the last job (pid `p`); every other slot is clear. -/
theorem deletejob_last_resets_counter (s : Shell) (p : Int) (i : Nat)
    (jb : Job_t) (hp : 1 ≤ p)
    (hi : s.jobs.get? i = some jb) (hjb : jb.pid = p)
    (hothers : ∀ k jk, k ≠ i → s.jobs.get? k = some jk →
      jk.pid = 0 ∧ jk.jid = 0) :
    deletejob s p = (true, ⟨s.jobs.set i clearedJob, 1⟩) ∧
    ∀ p2 st : Int, ∀ cmd : String, 1 ≤ p2 →
      addjob ⟨s.jobs.set i clearedJob, 1⟩ p2 st cmd =
        (true, ⟨(s.jobs.set i clearedJob).set 0 ⟨p2, 1, st, cmd⟩, 2⟩, []) := by
  have hilen : i < s.jobs.length := by
    by_contra hc
    rw [List.get?_eq_none.mpr (by omega)] at hi
    cases hi
  have hallset : ∀ k jk, (s.jobs.set i clearedJob).get? k = some jk →
      jk.pid = 0 ∧ jk.jid = 0 := by
    intro k jk hget
    by_cases hk : k = i
    · subst hk
      rw [List.get?_set_eq, hi] at hget
      cases hget
      exact ⟨rfl, rfl⟩
    · rw [List.get?_set_ne _ _ (fun h => hk h.symm)] at hget
      exact hothers k jk hk hget
  have hscan : scanIdx (fun j => j.pid == p) s.jobs = some i := by
    apply scanIdx_some
    · intro k hk jk hget
      have hne : k ≠ i := by omega
      have h0 := (hothers k jk hne hget).1
      rw [beq_eq_false_iff_ne, h0]
      omega
    · intro jk hget
      rw [hi] at hget
      cases hget
      rw [beq_iff_eq]
      exact hjb
    · exact hilen
  have hdel : deletejob s p = (true, ⟨s.jobs.set i clearedJob, 1⟩) := by
    rw [deletejob, if_neg (by omega), deletejobSlots_eq, hscan,
      Option.map_some']
    have hjz : ∀ j ∈ s.jobs.set i clearedJob, j.jid = 0 := by
      intro j hj
      obtain ⟨k, hk⟩ := List.mem_iff_get?.mp hj
      exact (hallset k j hk).2
    simp only []
    rw [maxjid_all_zero _ hjz]
    rfl
  refine ⟨hdel, ?_⟩
  intro p2 st cmd hp2
  have hlen0 : 0 < (s.jobs.set i clearedJob).length := by
    rw [List.length_set]
    omega
  have hscan0 : scanIdx (fun j => j.pid == 0) (s.jobs.set i clearedJob) =
      some 0 := by
    apply scanIdx_some
    · intro k hk
      exact absurd hk (Nat.not_lt_zero k)
    · intro jk hget
      rw [beq_iff_eq]
      exact (hallset 0 jk hget).1
    · exact hlen0
  rw [addjob, if_neg (by omega), addjobSlots_eq]
  rw [show firstFree (s.jobs.set i clearedJob) = some 0 from hscan0]
  norm_num [MAXJOBS]

/-- Witness for `deletejob_last_resets_counter`: a table whose single
occupied slot is slot 0 (pid 9, jid 7, counter already at 8): the delete
resets the counter to 1 and the next insert gets jid 1. -/
theorem deletejob_last_resets_counter_w :
    ((⟨⟨9, 7, BG, "c"⟩ :: List.replicate 15 clearedJob, 8⟩ : Shell).jobs.get? 0 =
      some ⟨9, 7, BG, "c"⟩) ∧
    deletejob ⟨⟨9, 7, BG, "c"⟩ :: List.replicate 15 clearedJob, 8⟩ 9 =
      (true, ⟨clearedJob :: List.replicate 15 clearedJob, 1⟩) ∧
    addjob ⟨clearedJob :: List.replicate 15 clearedJob, 1⟩ 4 BG "d" =
      (true, ⟨⟨4, 1, BG, "d"⟩ :: List.replicate 15 clearedJob, 2⟩, []) := by
  have h := deletejob_last_resets_counter
    ⟨⟨9, 7, BG, "c"⟩ :: List.replicate 15 clearedJob, 8⟩ 9 0 ⟨9, 7, BG, "c"⟩
    (by decide) rfl rfl
    (by
      intro k jk hk hget
      match k, hk with
      | k + 1, _ =>
          have : jk = clearedJob := by
            have := hget
            simp only [List.get?_cons_succ] at this
            have hmem : jk ∈ List.replicate 15 clearedJob := by
              rw [List.mem_iff_get?]
              exact ⟨k, this⟩
            exact List.eq_of_mem_replicate hmem
          rw [this]
          exact ⟨rfl, rfl⟩)
  refine ⟨rfl, ?_, ?_⟩
  · exact h.1.trans (by decide)
  · exact (h.2 4 BG "d" (by decide)).trans (by decide)

end Tsh
